import Mathlib

/-!
Shallow embedding of the pytorchic-bert repository (src/utils.py and
src/classify.py): the preprocessing pipeline, the CSV dataset tensor
conversion, the distillation loss engine (`get_loss`) and the training
loop of `QuantizedDistillElectraTrainer`.  Machine floats are modelled by
exact rationals; the transcendental torch kernels (sigmoid, BCE) are
abstract parameters; Python exceptions are an explicit error type.
-/

namespace QDElectra

/-- Python exceptions raised by the embedded code. -/
inductive PyError where
  | keyError (key : String)
  | nameError (name : String)
  | valueError (msg : String)
  | indexError (msg : String)
deriving DecidableEq, Repr

/-! ## utils.py -/

/-- Embedding of `utils.truncate_tokens_pair` (src/utils.py lines 66-73):
repeatedly drop the last token of the strictly longer list (of `tokens_b`
on ties) until the combined length is at most `maxLen`.  The Python
function mutates its arguments; the embedding returns the final pair. -/
def truncate_tokens_pair {α : Type} (tokens_a tokens_b : List α) (maxLen : Nat) :
    List α × List α :=
  if tokens_a.length + tokens_b.length ≤ maxLen then (tokens_a, tokens_b)
  else if tokens_b.length < tokens_a.length then
    truncate_tokens_pair tokens_a.dropLast tokens_b maxLen
  else
    truncate_tokens_pair tokens_a tokens_b.dropLast maxLen
termination_by tokens_a.length + tokens_b.length
decreasing_by
  · simp only [List.length_dropLast]; omega
  · simp only [List.length_dropLast]; omega

/-! ## classify.py : preprocessing pipeline -/

/-- Embedding of `AddSpecialTokensWithTruncation.__call__` (src/classify.py
lines 232-244): the budget is `max_len - 3` when a second sequence is
present before truncation, else `max_len - 2`; after truncation `[CLS]`
and `[SEP]` wrap `tokens_a`, and `[SEP]` is appended to `tokens_b` only
when the truncated `tokens_b` is non-empty (Python truthiness at line 242). -/
def addSpecialTokensWithTruncation (max_len : Nat) (label : String)
    (tokens_a tokens_b : List String) : String × List String × List String :=
  let mlen := if tokens_b ≠ [] then max_len - 3 else max_len - 2
  let tr := truncate_tokens_pair tokens_a tokens_b mlen
  let ta := ["[CLS]"] ++ tr.1 ++ ["[SEP]"]
  let tb := if tr.2 ≠ [] then tr.2 ++ ["[SEP]"] else []
  (label, ta, tb)

/-- The label id produced by `TokenIndexing`: an integer class index for
classification, a Python float (modelled as a rational) for regression. -/
inductive LabelId where
  | cls (i : Nat)
  | reg (q : ℚ)
deriving DecidableEq, Repr

/-- Embedding of the dict comprehension
`{name: i for i, name in enumerate(labels)}` followed by `[name]` lookup:
later duplicates overwrite earlier entries, a missing key is `none`. -/
def labelMap (labels : List String) (name : String) : Option Nat :=
  labels.enum.foldl (fun acc p => if p.2 = name then some p.1 else acc) none

/-- Embedding of the label branch of `TokenIndexing.__call__` (src/classify.py
lines 263-268).  `float(label)` is modelled by the abstract parser `parseF`
(raising `ValueError` when it fails).  The final `else` executes
`raise KeyError(output_mode)` whose unqualified name `output_mode` is not
bound in the method scope, so Python raises `NameError("output_mode")`
before any `KeyError` is constructed. -/
def computeLabelId (labels : List String) (parseF : String → Option ℚ)
    (output_mode : String) (label : String) : Except PyError LabelId :=
  if output_mode = "classification" then
    match labelMap labels label with
    | some i => .ok (.cls i)
    | none => .error (.keyError label)
  else if output_mode = "regression" then
    match parseF label with
    | some q => .ok (.reg q)
    | none => .error (.valueError label)
  else
    .error (.nameError "output_mode")

/-- Embedding of `TokenIndexing.__call__` (src/classify.py lines 257-275):
index the concatenated tokens, build type ids and attention mask, compute
the label id, then zero-pad all three sequences up to `max_len`
(`n_pad` is never negative in the intended regime; Python's
`extend([0]*n_pad)` with negative `n_pad` is a no-op, as is `Nat`
subtraction here).  Returns `(input_ids, attention_mask, token_type_ids,
label_id)` in source order. -/
def tokenIndexing (indexer : String → Nat) (labels : List String)
    (parseF : String → Option ℚ) (output_mode : String) (max_len : Nat)
    (label : String) (tokens_a tokens_b : List String) :
    Except PyError (List Nat × List Nat × List Nat × LabelId) :=
  let input_ids := (tokens_a ++ tokens_b).map indexer
  let token_type_ids :=
    List.replicate tokens_a.length 0 ++ List.replicate tokens_b.length 1
  let attention_mask := List.replicate (tokens_a.length + tokens_b.length) 1
  (computeLabelId labels parseF output_mode label).map fun label_id =>
    let n_pad := max_len - input_ids.length
    (input_ids ++ List.replicate n_pad 0,
     attention_mask ++ List.replicate n_pad 0,
     token_type_ids ++ List.replicate n_pad 0,
     label_id)

/-! ## classify.py : CsvDataset tensor conversion -/

/-- Truncation toward zero of a rational, the conversion a float undergoes
when stored into a `torch.long` tensor. -/
def ratTruncTowardZero (q : ℚ) : Int :=
  if 0 ≤ q then ⌊q⌋ else ⌈q⌉

/-- The value stored for a label field by
`torch.tensor(x, dtype=torch.long)` (src/classify.py line 59): an integer
label is kept, a float label is truncated toward zero. -/
def toLong : LabelId → Int
  | .cls i => (i : Int)
  | .reg q => ratTruncTowardZero q

/-- One fully preprocessed instance, as appended to `data` in
`CsvDataset.__init__`. -/
structure CsvRow where
  input_ids : List Nat
  attention_mask : List Nat
  token_type_ids : List Nat
  label_id : LabelId
deriving DecidableEq, Repr

/-- Embedding of `self.tensors = [torch.tensor(x, dtype=torch.long) for x
in zip(*data)]` (src/classify.py line 59): every field of every example
becomes a long-integer tensor. -/
def csvTensors (data : List CsvRow) :
    List (List Int) × List (List Int) × List (List Int) × List Int :=
  (data.map fun r => r.input_ids.map Int.ofNat,
   data.map fun r => r.attention_mask.map Int.ofNat,
   data.map fun r => r.token_type_ids.map Int.ofNat,
   data.map fun r => toLong r.label_id)

/-- Embedding of `CsvDataset.__getitem__` (src/classify.py lines 64-65):
the `index`-th slice of each stored tensor. -/
def csvGetItem (data : List CsvRow) (index : Nat) :
    Option (List Int × List Int × List Int × Int) :=
  let t := csvTensors data
  match t.1[index]?, t.2.1[index]?, t.2.2.1[index]?, t.2.2.2[index]? with
  | some a, some b, some c, some d => some (a, b, c, d)
  | _, _, _, _ => none

/-! ## classify.py : distillation loss engine -/

/-- Embedding of `tensor.mean()` over a list of replica values (or a
flattened tensor). -/
def mean (xs : List ℚ) : ℚ := xs.sum / (xs.length : ℚ)

/-- Embedding of `nn.MSELoss()` between two equally shaped flattened
tensors. -/
def mseLoss (xs ys : List ℚ) : ℚ :=
  (List.zipWith (fun x y => (x - y) ^ 2) xs ys).sum / (xs.length : ℚ)

/-- Elementwise sum of two flattened tensors. -/
def addLists (xs ys : List ℚ) : List ℚ := List.zipWith (· + ·) xs ys

/-- Embedding of `torch.mean(t, dim=1)` over the head dimension of a group
of heads, each head a flattened attention matrix. -/
def tensorMeanHeads (g : List (List ℚ)) : List ℚ :=
  match g with
  | [] => []
  | h :: t => (t.foldl addLists h).map (· / ((h :: t).length : ℚ))

/-- Embedding of `torch.split(t, sections, dim=1)`: successive chunks of
the head list with the given sizes. -/
def splitWithSections {α : Type} : List Nat → List α → List (List α)
  | [], _ => []
  | n :: ns, xs => xs.take n :: splitWithSections ns (xs.drop n)

/-- The inner enumerate loop of the attention loss (src/classify.py lines
481-482): for each `(i, split_t_atten)` in order, index student head `i`
and build its MSE term against the chunk mean.  `s_atten[:, i, :, :]`
raises `IndexError` as soon as `i` reaches the student head count, which
aborts the whole computation exactly as in Python. -/
def attenTermsGo (s_atten : List (List ℚ)) :
    List (Nat × List (List ℚ)) → Except PyError (List ℚ)
  | [] => .ok []
  | p :: rest =>
    match s_atten[p.1]? with
    | none => .error (.indexError "index out of range")
    | some s_head =>
      (attenTermsGo s_atten rest).map
        fun ts => mseLoss s_head (tensorMeanHeads p.2) :: ts

/-- The per-layer attention-loss terms of `get_loss` (src/classify.py lines
478-482): the teacher heads are split into `t_n_heads / s_n_heads` chunks
of `s_n_heads` heads each, and chunk `i` yields one MSE term against
student head `i`; indexing a missing student head (possible whenever the
chunk count exceeds the student head count) raises `IndexError`. -/
def attenLayerTerms (s_n_heads t_n_heads : Nat)
    (s_atten t_atten : List (List ℚ)) : Except PyError (List ℚ) :=
  let split_sections := List.replicate (t_n_heads / s_n_heads) s_n_heads
  let split_t_attens := splitWithSections split_sections t_atten
  attenTermsGo s_atten split_t_attens.enum

/-- The hidden-layer loss of `get_loss` (src/classify.py lines 469-471):
MSE summed over the first `n` pairs of (aligned student, teacher) hidden
states. -/
def hiddenLayersLoss (n : Nat) (s2t_hidden_states t_hidden_states : List (List ℚ)) : ℚ :=
  ((s2t_hidden_states.zip t_hidden_states).take n).foldl
    (fun acc p => acc + mseLoss p.1 p.2) 0

/-- The attention loss of `get_loss` (src/classify.py lines 477-482):
per-layer terms summed over the first `n` layer pairs; an `IndexError`
raised in any layer aborts the computation. -/
def attenLayersLoss (s_n_heads t_n_heads n : Nat)
    (s_attentions t_attentions : List (List (List ℚ))) : Except PyError ℚ :=
  ((s_attentions.zip t_attentions).take n).foldlM
    (fun acc p => (attenLayerTerms s_n_heads t_n_heads p.1 p.2).map
      fun ts => acc + ts.sum) 0

/-- The transcendental torch kernels used by the soft-logits term, kept
abstract (external float collaborators). -/
structure TorchOps where
  sigmoid : ℚ → ℚ
  bce : List ℚ → List ℚ → ℚ

/-- The training-configuration fields read by the trainer. -/
structure TrainCfg where
  temperature : ℚ
  lambda_ : ℚ
  soft_logits_factor : ℚ
  atten_layers_factor : ℚ
  n_epochs : Nat
  total_steps : Nat
  save_steps : Nat
deriving DecidableEq, Repr

/-- The model-configuration fields read by the trainer. -/
structure ModelCfg where
  num_hidden_layers : Nat
  s_n_heads : Nat
  t_n_heads : Nat
deriving DecidableEq, Repr

/-- The configuration flags stored by
`QuantizedDistillElectraTrainer.__init__` (src/classify.py lines 357-383). -/
structure TrainerFlags where
  distill : Bool
  gradually_distill : Bool
  imitate_tinybert : Bool
  pred_distill : Bool
  output_mode : String
deriving DecidableEq, Repr

/-- One model forward-pass output: per-replica task losses, flattened
logits, per-layer flattened hidden states, per-layer per-head flattened
attention matrices. -/
structure ModelOutput where
  loss : List ℚ
  logits : List ℚ
  hidden_states : List (List ℚ)
  attentions : List (List (List ℚ))

/-- One `writer.add_scalars` emission: the global step and the named
scalar values. -/
abbrev ScalarLog := Nat × List (String × ℚ)

/-- The scalar group logged by the distillation path of `get_loss`
(src/classify.py lines 502-512). -/
def distillLogEntry (global_step : Nat) (tl sl soft hid att total lr : ℚ) : ScalarLog :=
  (global_step,
   [("t_discriminator_loss", tl), ("s_discriminator_loss", sl),
    ("soft_logits_loss", soft), ("hidden_layers_loss", hid),
    ("attention_loss", att), ("total_loss", total), ("lr", lr)])

/-- The unscaled soft-logits loss of `get_loss` (src/classify.py lines
462-465): BCE between the temperature-softened sigmoids of student and
(detached) teacher logits, times temperature squared. -/
def softLogitsRaw (tcfg : TrainCfg) (ops : TorchOps) (s_logits t_logits : List ℚ) : ℚ :=
  ops.bce (s_logits.map fun x => ops.sigmoid (x / tcfg.temperature))
      (t_logits.map fun x => ops.sigmoid (x / tcfg.temperature)) *
    tcfg.temperature * tcfg.temperature

/-- Embedding of `QuantizedDistillElectraTrainer.get_loss` (src/classify.py
lines 435-521).  The writer is threaded as explicit state; the returned
pair is (total loss, writer stream after the call).  In the
`imitate_tinybert` branch the source evaluates the unqualified name
`pred_distill`, which is unbound in the method scope, so Python raises
`NameError("pred_distill")` there (`self.pred_distill` is never read).
The attention loop (lines 477-482) executes before that branch, so an
`IndexError` it raises propagates first.  `ceil(cur_epoch / 1)` is
`cur_epoch`. -/
def get_loss (flags : TrainerFlags) (tcfg : TrainCfg) (mcfg : ModelCfg)
    (ops : TorchOps) (t_out s_out : ModelOutput)
    (s2t_hidden_states : List (List ℚ)) (global_step cur_epoch : Nat)
    (lr : ℚ) (writer : List ScalarLog) : Except PyError (ℚ × List ScalarLog) :=
  let t_loss := mean t_out.loss
  let s_loss := mean s_out.loss
  if flags.distill = false then
    let total_loss := s_loss
    .ok (total_loss,
      writer ++ [(global_step, [("total_loss", total_loss), ("lr", lr)])])
  else
    let max_n_distilled_layers := mcfg.num_hidden_layers + 1
    let n_distilled_layers :=
      if flags.gradually_distill then cur_epoch else max_n_distilled_layers
    let soft_logits_loss := softLogitsRaw tcfg ops s_out.logits t_out.logits
    let soft_logits_loss :=
      if flags.gradually_distill = true ∧ n_distilled_layers ≤ max_n_distilled_layers then
        soft_logits_loss * 0
      else soft_logits_loss
    let hidden_layers_loss :=
      hiddenLayersLoss n_distilled_layers s2t_hidden_states t_out.hidden_states
    (attenLayersLoss mcfg.s_n_heads mcfg.t_n_heads n_distilled_layers
        s_out.attentions t_out.attentions).bind fun atten_layers_loss =>
      let t_loss := t_loss * tcfg.lambda_
      let s_loss := s_loss * tcfg.lambda_
      let soft_logits_loss := soft_logits_loss * tcfg.soft_logits_factor
      let atten_layers_loss := atten_layers_loss * tcfg.atten_layers_factor
      if flags.imitate_tinybert = true then
        .error (.nameError "pred_distill")
      else
        let total_loss :=
          t_loss + s_loss + soft_logits_loss + hidden_layers_loss + atten_layers_loss
        .ok (total_loss,
          writer ++ [distillLogEntry global_step t_loss s_loss soft_logits_loss
            hidden_layers_loss atten_layers_loss total_loss lr])

/-! ## classify.py : training loop -/

/-- Embedding of the inner batch loop of
`QuantizedDistillElectraTrainer.train` (src/classify.py lines 399-427) for
one epoch, tracking only the control state the temporal claim needs: the
global step counter (one optimizer step per increment) and the list of
steps at which a checkpoint was saved.  Per batch: optimizer step and
`global_step += 1`; save when `global_step % save_steps == 0`; then, when
`total_steps` is truthy and `total_steps < global_step`, save and return
early (third component `true`). -/
def runEpochBatches (total_steps save_steps : Nat) :
    Nat → Nat → List Nat → Nat × List Nat × Bool
  | 0, g, saves => (g, saves, false)
  | n + 1, g, saves =>
    let g' := g + 1
    let saves' := if g' % save_steps = 0 then saves ++ [g'] else saves
    if total_steps ≠ 0 ∧ total_steps < g' then (g', saves' ++ [g'], true)
    else runEpochBatches total_steps save_steps n g' saves'

/-- Embedding of the epoch loop of `QuantizedDistillElectraTrainer.train`
(src/classify.py lines 393-430) over `n_epochs` epochs of
`batches_per_epoch` batches each: run each epoch's batch loop, stop as
soon as it returns early; after a full run of all epochs, save once more
(line 430). -/
def trainLoop (total_steps save_steps batches_per_epoch : Nat) :
    Nat → Nat → List Nat → Nat × List Nat × Bool
  | 0, g, saves => (g, saves ++ [g], false)
  | e + 1, g, saves =>
    let r := runEpochBatches total_steps save_steps batches_per_epoch g saves
    if r.2.2 then r
    else trainLoop total_steps save_steps batches_per_epoch e r.1 r.2.1

/-! ## Helper lemmas : truncation -/

theorem truncate_of_le {α : Type} {tokens_a tokens_b : List α} {maxLen : Nat}
    (h : tokens_a.length + tokens_b.length ≤ maxLen) :
    truncate_tokens_pair tokens_a tokens_b maxLen = (tokens_a, tokens_b) := by
  rw [truncate_tokens_pair]
  simp [h]

theorem truncate_step_a {α : Type} {tokens_a tokens_b : List α} {maxLen : Nat}
    (h : ¬ tokens_a.length + tokens_b.length ≤ maxLen)
    (h2 : tokens_b.length < tokens_a.length) :
    truncate_tokens_pair tokens_a tokens_b maxLen =
      truncate_tokens_pair tokens_a.dropLast tokens_b maxLen := by
  rw [truncate_tokens_pair]
  simp [h, h2]

theorem truncate_step_b {α : Type} {tokens_a tokens_b : List α} {maxLen : Nat}
    (h : ¬ tokens_a.length + tokens_b.length ≤ maxLen)
    (h2 : ¬ tokens_b.length < tokens_a.length) :
    truncate_tokens_pair tokens_a tokens_b maxLen =
      truncate_tokens_pair tokens_a tokens_b.dropLast maxLen := by
  rw [truncate_tokens_pair]
  simp [h, h2]

theorem truncate_sum_le {α : Type} (tokens_a tokens_b : List α) (maxLen : Nat) :
    (truncate_tokens_pair tokens_a tokens_b maxLen).1.length +
      (truncate_tokens_pair tokens_a tokens_b maxLen).2.length ≤ maxLen := by
  induction tokens_a, tokens_b, maxLen using truncate_tokens_pair.induct with
  | case1 a b m h => rw [truncate_of_le h]; exact h
  | case2 a b m h h2 ih => rw [truncate_step_a h h2]; exact ih
  | case3 a b m h h2 ih => rw [truncate_step_b h h2]; exact ih

/-- Taking `n` elements is the same as taking `min n length`. -/
theorem take_eq_take_min {α : Type} (l : List α) (n : Nat) :
    l.take n = l.take (min n l.length) := by
  rcases le_total n l.length with h | h
  · rw [min_eq_left h]
  · rw [min_eq_right h, List.take_of_length_le h, List.take_length]

/-- A take of a list equals the take of its own length. -/
theorem take_self_length {α : Type} {l x : List α} (h : ∃ n, x = l.take n) :
    x = l.take x.length := by
  obtain ⟨n, rfl⟩ := h
  rw [List.length_take, ← take_eq_take_min]

theorem truncate_exists_take {α : Type} (tokens_a tokens_b : List α) (maxLen : Nat) :
    (∃ n, (truncate_tokens_pair tokens_a tokens_b maxLen).1 = tokens_a.take n) ∧
    (∃ n, (truncate_tokens_pair tokens_a tokens_b maxLen).2 = tokens_b.take n) := by
  induction tokens_a, tokens_b, maxLen using truncate_tokens_pair.induct with
  | case1 a b m h =>
    rw [truncate_of_le h]
    exact ⟨⟨a.length, (List.take_length _).symm⟩, ⟨b.length, (List.take_length _).symm⟩⟩
  | case2 a b m h h2 ih =>
    rw [truncate_step_a h h2]
    obtain ⟨⟨n1, e1⟩, hb⟩ := ih
    refine ⟨⟨min n1 (a.length - 1), ?_⟩, hb⟩
    rw [e1, List.dropLast_eq_take, List.take_take]
  | case3 a b m h h2 ih =>
    rw [truncate_step_b h h2]
    obtain ⟨ha, ⟨n2, e2⟩⟩ := ih
    refine ⟨ha, ⟨min n2 (b.length - 1), ?_⟩⟩
    rw [e2, List.dropLast_eq_take, List.take_take]

theorem truncate_take {α : Type} (tokens_a tokens_b : List α) (maxLen : Nat) :
    (truncate_tokens_pair tokens_a tokens_b maxLen).1 =
      tokens_a.take (truncate_tokens_pair tokens_a tokens_b maxLen).1.length ∧
    (truncate_tokens_pair tokens_a tokens_b maxLen).2 =
      tokens_b.take (truncate_tokens_pair tokens_a tokens_b maxLen).2.length :=
  ⟨take_self_length (truncate_exists_take tokens_a tokens_b maxLen).1,
   take_self_length (truncate_exists_take tokens_a tokens_b maxLen).2⟩

/-- When the second list is empty it stays empty (only the first list is
ever popped). -/
theorem truncate_snd_nil {α : Type} (tokens_a : List α) (maxLen : Nat) :
    (truncate_tokens_pair tokens_a ([] : List α) maxLen).2 = [] := by
  have h := (truncate_take tokens_a ([] : List α) maxLen).2
  simpa using h

/-! ## Helper lemmas : pipeline stages -/

/-- The combined token count after the special-token stage is at most
`max_len`. -/
theorem addSpecial_sum_le (max_len : Nat) (h3 : 3 ≤ max_len) (label : String)
    (tokens_a tokens_b : List String) :
    (addSpecialTokensWithTruncation max_len label tokens_a tokens_b).2.1.length +
      (addSpecialTokensWithTruncation max_len label tokens_a tokens_b).2.2.length ≤
      max_len := by
  unfold addSpecialTokensWithTruncation
  by_cases hb : tokens_b = []
  · subst hb
    have hsum := truncate_sum_le tokens_a ([] : List String) (max_len - 2)
    have hnil := truncate_snd_nil tokens_a (max_len - 2)
    simp [hnil]
    simp [hnil] at hsum
    omega
  · have hsum := truncate_sum_le tokens_a tokens_b (max_len - 3)
    simp only [if_pos hb, ne_eq, hb, not_false_iff, if_true]
    by_cases htb : (truncate_tokens_pair tokens_a tokens_b (max_len - 3)).2 = []
    · simp [htb]
      simp [htb] at hsum
      omega
    · simp [htb]
      omega

/-- After the special-token stage, `tokens_a` starts with `[CLS]` and ends
with `[SEP]`. -/
theorem addSpecial_markers (max_len : Nat) (label : String)
    (tokens_a tokens_b : List String) :
    (addSpecialTokensWithTruncation max_len label tokens_a tokens_b).2.1.head? =
      some "[CLS]" ∧
    (addSpecialTokensWithTruncation max_len label tokens_a tokens_b).2.1.getLast? =
      some "[SEP]" := by
  unfold addSpecialTokensWithTruncation
  constructor
  · simp
  · simp only [List.append_assoc, List.singleton_append, ← List.cons_append,
      List.getLast?_concat]

/-- When the instance fits the budget, a successful `TokenIndexing` pads
every sequence to exactly `max_len`. -/
theorem tokenIndexing_ok_lengths (indexer : String → Nat) (labels : List String)
    (parseF : String → Option ℚ) (output_mode : String) (max_len : Nat)
    (label : String) (tokens_a tokens_b : List String)
    (hsum : tokens_a.length + tokens_b.length ≤ max_len) :
    ∀ out, tokenIndexing indexer labels parseF output_mode max_len label
        tokens_a tokens_b = .ok out →
      out.1.length = max_len ∧ out.2.1.length = max_len ∧
        out.2.2.1.length = max_len := by
  intro out h
  unfold tokenIndexing at h
  cases hc : computeLabelId labels parseF output_mode label with
  | error e => rw [hc] at h; simp [Except.map] at h
  | ok lid =>
    rw [hc] at h
    simp only [Except.map, Except.ok.injEq] at h
    subst h
    refine ⟨?_, ?_, ?_⟩ <;> simp <;> omega

/-! ## Claim theorems -/

/-- C5: for every pair of token lists and every non-negative budget,
`truncate_tokens_pair` repeatedly removes one token from the end of
whichever list is currently longer — from `tokens_a` only when it is
strictly longer, from `tokens_b` when the lengths are equal — until the
combined length is at most the budget, and each resulting list is a
prefix (an initial take) of its input. -/
theorem C5_truncate_removal_policy {α : Type} (tokens_a tokens_b : List α)
    (max_len : Nat) :
    (truncate_tokens_pair tokens_a tokens_b max_len).1.length +
      (truncate_tokens_pair tokens_a tokens_b max_len).2.length ≤ max_len ∧
    (truncate_tokens_pair tokens_a tokens_b max_len).1 =
      tokens_a.take (truncate_tokens_pair tokens_a tokens_b max_len).1.length ∧
    (truncate_tokens_pair tokens_a tokens_b max_len).2 =
      tokens_b.take (truncate_tokens_pair tokens_a tokens_b max_len).2.length ∧
    (max_len < tokens_a.length + tokens_b.length →
      (tokens_b.length < tokens_a.length →
        truncate_tokens_pair tokens_a tokens_b max_len =
          truncate_tokens_pair tokens_a.dropLast tokens_b max_len) ∧
      (tokens_a.length ≤ tokens_b.length →
        truncate_tokens_pair tokens_a tokens_b max_len =
          truncate_tokens_pair tokens_a tokens_b.dropLast max_len)) :=
  ⟨truncate_sum_le tokens_a tokens_b max_len,
   (truncate_take tokens_a tokens_b max_len).1,
   (truncate_take tokens_a tokens_b max_len).2,
   fun hgt =>
     ⟨fun h2 => truncate_step_a (by omega) h2,
      fun h2 => truncate_step_b (by omega) (by omega)⟩⟩

/-- C5 witness: at `tokens_a = [0, 1]`, `tokens_b = [2, 3]`, budget 3, the
lengths tie and the step removes from `tokens_b`. -/
theorem C5_truncate_removal_policy_witness :
    truncate_tokens_pair [0, 1] [2, 3] 3 =
      truncate_tokens_pair [0, 1] ([2, 3].dropLast) 3 :=
  ((C5_truncate_removal_policy [0, 1] [2, 3] 3).2.2.2 (by decide)).2 (by decide)

/-- C9: `truncate_tokens_pair` is a no-op on every already-within-budget
pair, so re-applying truncation after a first application changes
nothing. -/
theorem C9_truncate_idempotent {α : Type} (tokens_a tokens_b : List α)
    (max_len : Nat) :
    (tokens_a.length + tokens_b.length ≤ max_len →
      truncate_tokens_pair tokens_a tokens_b max_len = (tokens_a, tokens_b)) ∧
    truncate_tokens_pair (truncate_tokens_pair tokens_a tokens_b max_len).1
        (truncate_tokens_pair tokens_a tokens_b max_len).2 max_len =
      truncate_tokens_pair tokens_a tokens_b max_len := by
  refine ⟨fun h => truncate_of_le h, ?_⟩
  exact truncate_of_le (truncate_sum_le tokens_a tokens_b max_len)

/-- C9 witness: a within-budget pair is returned unchanged. -/
theorem C9_truncate_idempotent_witness :
    [0].length + [1].length ≤ 5 ∧ truncate_tokens_pair [0] [1] 5 = ([0], [1]) :=
  ⟨by decide, (C9_truncate_idempotent [0] [1] 5).1 (by decide)⟩

/-- C6: after the special-token-and-truncation stage the combined token
count is at most `max_len` and `tokens_a` starts with `[CLS]` and ends
with `[SEP]`; after a successful `TokenIndexing` of its output,
`input_ids`, `attention_mask` and `token_type_ids` each have length
exactly `max_len`. -/
theorem C6_pipeline_length_invariants (max_len : Nat) (h3 : 3 ≤ max_len)
    (label : String) (tokens_a tokens_b : List String) (indexer : String → Nat)
    (labels : List String) (parseF : String → Option ℚ) (output_mode : String) :
    (addSpecialTokensWithTruncation max_len label tokens_a tokens_b).2.1.length +
      (addSpecialTokensWithTruncation max_len label tokens_a tokens_b).2.2.length ≤
      max_len ∧
    (addSpecialTokensWithTruncation max_len label tokens_a tokens_b).2.1.head? =
      some "[CLS]" ∧
    (addSpecialTokensWithTruncation max_len label tokens_a tokens_b).2.1.getLast? =
      some "[SEP]" ∧
    ∀ out,
      tokenIndexing indexer labels parseF output_mode max_len
        (addSpecialTokensWithTruncation max_len label tokens_a tokens_b).1
        (addSpecialTokensWithTruncation max_len label tokens_a tokens_b).2.1
        (addSpecialTokensWithTruncation max_len label tokens_a tokens_b).2.2 =
        .ok out →
      out.1.length = max_len ∧ out.2.1.length = max_len ∧
        out.2.2.1.length = max_len :=
  ⟨addSpecial_sum_le max_len h3 label tokens_a tokens_b,
   (addSpecial_markers max_len label tokens_a tokens_b).1,
   (addSpecial_markers max_len label tokens_a tokens_b).2,
   tokenIndexing_ok_lengths indexer labels parseF output_mode max_len _ _ _
     (addSpecial_sum_le max_len h3 label tokens_a tokens_b)⟩

/-- C6 witness: a concrete sentence pair under `max_len = 8`. -/
theorem C6_pipeline_length_invariants_witness :
    3 ≤ 8 ∧
    (addSpecialTokensWithTruncation 8 "1" ["a", "b"] ["c"]).2.1.length +
      (addSpecialTokensWithTruncation 8 "1" ["a", "b"] ["c"]).2.2.length ≤ 8 :=
  ⟨by decide,
   (C6_pipeline_length_invariants 8 (by decide) "1" ["a", "b"] ["c"]
     (fun _ => 7) ["0", "1"] (fun _ => none) "classification").1⟩

/-- C8 (code bug): on an unrecognized output mode, `TokenIndexing.__call__`
reaches `raise KeyError(output_mode)` whose unqualified name `output_mode`
is unbound, so the call fails with `NameError`, not with the claimed
lookup error; the recognized modes map the label without error. -/
theorem C8_token_indexing_unknown_mode :
    tokenIndexing (fun _ => 7) ["0", "1"] (fun _ => none) "span" 8 "1"
        ["[CLS]", "x", "[SEP]"] [] = .error (.nameError "output_mode") ∧
    tokenIndexing (fun _ => 7) ["0", "1"] (fun _ => none) "classification" 8 "1"
        ["[CLS]", "x", "[SEP]"] [] =
      .ok ([7, 7, 7, 0, 0, 0, 0, 0], [1, 1, 1, 0, 0, 0, 0, 0],
        [0, 0, 0, 0, 0, 0, 0, 0], .cls 1) ∧
    tokenIndexing (fun _ => 7) ["0", "1"] (fun _ => some 2) "regression" 8 "2.0"
        ["[CLS]", "x", "[SEP]"] [] =
      .ok ([7, 7, 7, 0, 0, 0, 0, 0], [1, 1, 1, 0, 0, 0, 0, 0],
        [0, 0, 0, 0, 0, 0, 0, 0], .reg 2) := by
  refine ⟨rfl, rfl, rfl⟩

/-- C10: the label field of a `CsvDataset` example is stored as a
long-integer tensor, so for a regression task the value retrieved from the
dataset is the integer truncation (toward zero) of the float label
produced by `TokenIndexing`. -/
theorem C10_csv_long_label (indexer : String → Nat) (labels : List String)
    (parseF : String → Option ℚ) (max_len : Nat) (label : String)
    (tokens_a tokens_b : List String) (q : ℚ) (hparse : parseF label = some q) :
    ∀ out,
      tokenIndexing indexer labels parseF "regression" max_len label
        tokens_a tokens_b = .ok out →
      out.2.2.2 = .reg q ∧
      csvGetItem [⟨out.1, out.2.1, out.2.2.1, out.2.2.2⟩] 0 =
        some (out.1.map Int.ofNat, out.2.1.map Int.ofNat,
          out.2.2.1.map Int.ofNat, ratTruncTowardZero q) := by
  intro out h
  unfold tokenIndexing computeLabelId at h
  rw [if_neg (by decide), if_pos rfl, hparse] at h
  simp only [Except.map, Except.ok.injEq] at h
  subst h
  exact ⟨rfl, rfl⟩

/-- C10 witness: the float label 2.5 is retrieved from the dataset as the
long integer 2, which differs from the float itself. -/
theorem C10_csv_long_label_witness :
    (LabelId.reg (5 / 2) = LabelId.reg (5 / 2) ∧
      csvGetItem [⟨[7, 0, 0, 0], [1, 0, 0, 0], [0, 0, 0, 0], .reg (5 / 2)⟩] 0 =
        some ([7, 0, 0, 0], [1, 0, 0, 0], [0, 0, 0, 0],
          ratTruncTowardZero (5 / 2))) ∧
    ratTruncTowardZero (5 / 2) = 2 ∧ ((5 : ℚ) / 2) ≠ ((2 : Int) : ℚ) :=
  ⟨C10_csv_long_label (fun _ => 7) [] (fun _ => some (5 / 2)) 4 "2.5" ["x"] []
      (5 / 2) rfl
      ([7, 0, 0, 0], [1, 0, 0, 0], [0, 0, 0, 0], .reg (5 / 2)) rfl,
   by norm_num [ratTruncTowardZero], by norm_num⟩

/-- C3: when the `distill` flag is false, `get_loss` returns exactly the
student task loss (the mean over data-parallel replicas), whatever the
other flags are; the scalar-log emission is appended to the writer stream
without affecting the returned value. -/
theorem C3_no_distill_student_loss (flags : TrainerFlags) (tcfg : TrainCfg)
    (mcfg : ModelCfg) (ops : TorchOps) (t_out s_out : ModelOutput)
    (s2t_hidden_states : List (List ℚ)) (global_step cur_epoch : Nat) (lr : ℚ)
    (writer : List ScalarLog) (h : flags.distill = false) :
    get_loss flags tcfg mcfg ops t_out s_out s2t_hidden_states global_step
        cur_epoch lr writer =
      .ok (mean s_out.loss,
        writer ++ [(global_step,
          [("total_loss", mean s_out.loss), ("lr", lr)])]) := by
  simp [get_loss, h]

/-- C3 witness: a concrete call with `distill = false` and a non-empty
writer stream. -/
theorem C3_no_distill_student_loss_witness :
    get_loss ⟨false, true, true, true, "classification"⟩ ⟨1, 1, 1, 1, 1, 0, 100⟩
        ⟨2, 2, 2⟩ ⟨fun x => x, fun _ _ => 1⟩ ⟨[4], [0], [], []⟩
        ⟨[6], [0], [], []⟩ [] 9 1 (1 / 2) [(3, [("lr", 5)])] =
      .ok (mean [6],
        [(3, [("lr", 5)])] ++ [(9, [("total_loss", mean [6]), ("lr", 1 / 2)])]) :=
  C3_no_distill_student_loss ⟨false, true, true, true, "classification"⟩
    ⟨1, 1, 1, 1, 1, 0, 100⟩ ⟨2, 2, 2⟩ ⟨fun x => x, fun _ _ => 1⟩
    ⟨[4], [0], [], []⟩ ⟨[6], [0], [], []⟩ [] 9 1 (1 / 2) [(3, [("lr", 5)])] rfl

/-- C2 (code bug): whenever `imitate_tinybert` is true, `get_loss` reaches
`if not pred_distill:` (src/classify.py line 490), whose unqualified name
`pred_distill` is unbound in the method scope, and fails with a
`NameError` regardless of the stored `self.pred_distill` flag and of the
output mode — it never computes the claimed stage-dependent losses and
never raises the claimed lookup error (whose own `raise Keyerror(...)` is
also a misspelling). -/
theorem C2_imitate_tinybert_name_error :
    get_loss ⟨true, false, true, false, "classification"⟩ ⟨1, 1, 1, 1, 1, 0, 100⟩
        ⟨2, 2, 2⟩ ⟨fun x => x, fun _ _ => 1⟩ ⟨[0], [0], [], []⟩
        ⟨[0], [0], [], []⟩ [] 0 1 0 [] = .error (.nameError "pred_distill") ∧
    get_loss ⟨true, false, true, true, "classification"⟩ ⟨1, 1, 1, 1, 1, 0, 100⟩
        ⟨2, 2, 2⟩ ⟨fun x => x, fun _ _ => 1⟩ ⟨[0], [0], [], []⟩
        ⟨[0], [0], [], []⟩ [] 0 1 0 [] = .error (.nameError "pred_distill") ∧
    get_loss ⟨true, false, true, true, "regression"⟩ ⟨1, 1, 1, 1, 1, 0, 100⟩
        ⟨2, 2, 2⟩ ⟨fun x => x, fun _ _ => 1⟩ ⟨[0], [0], [], []⟩
        ⟨[0], [0], [], []⟩ [] 0 1 0 [] = .error (.nameError "pred_distill") :=
  ⟨rfl, rfl, rfl⟩

/-- C1 (amended): with distillation enabled and gradual distillation
active, the soft-logits term is zeroed exactly when the number of
distilled layers N (= current epoch) has not yet *exceeded* the maximum
(`num_hidden_layers + 1`) — in particular it is still zeroed in the epoch
where N equals the maximum — and contributes its computed
temperature- and factor-scaled value only once N exceeds the maximum. -/
theorem C1_amended_gradual_soft_zeroing (flags : TrainerFlags) (tcfg : TrainCfg)
    (mcfg : ModelCfg) (ops : TorchOps) (t_out s_out : ModelOutput)
    (s2t_hidden_states : List (List ℚ)) (global_step cur_epoch : Nat) (lr : ℚ)
    (writer : List ScalarLog) (hd : flags.distill = true)
    (hg : flags.gradually_distill = true) (hi : flags.imitate_tinybert = false) :
    (cur_epoch ≤ mcfg.num_hidden_layers + 1 →
      get_loss flags tcfg mcfg ops t_out s_out s2t_hidden_states global_step
          cur_epoch lr writer =
        (attenLayersLoss mcfg.s_n_heads mcfg.t_n_heads cur_epoch
            s_out.attentions t_out.attentions).map fun av =>
          (mean t_out.loss * tcfg.lambda_ + mean s_out.loss * tcfg.lambda_ +
            0 + hiddenLayersLoss cur_epoch s2t_hidden_states t_out.hidden_states +
            av * tcfg.atten_layers_factor,
          writer ++ [distillLogEntry global_step
            (mean t_out.loss * tcfg.lambda_) (mean s_out.loss * tcfg.lambda_) 0
            (hiddenLayersLoss cur_epoch s2t_hidden_states t_out.hidden_states)
            (av * tcfg.atten_layers_factor)
            (mean t_out.loss * tcfg.lambda_ + mean s_out.loss * tcfg.lambda_ +
              0 + hiddenLayersLoss cur_epoch s2t_hidden_states t_out.hidden_states +
              av * tcfg.atten_layers_factor)
            lr])) ∧
    (mcfg.num_hidden_layers + 1 < cur_epoch →
      get_loss flags tcfg mcfg ops t_out s_out s2t_hidden_states global_step
          cur_epoch lr writer =
        (attenLayersLoss mcfg.s_n_heads mcfg.t_n_heads cur_epoch
            s_out.attentions t_out.attentions).map fun av =>
          (mean t_out.loss * tcfg.lambda_ + mean s_out.loss * tcfg.lambda_ +
            softLogitsRaw tcfg ops s_out.logits t_out.logits *
              tcfg.soft_logits_factor +
            hiddenLayersLoss cur_epoch s2t_hidden_states t_out.hidden_states +
            av * tcfg.atten_layers_factor,
          writer ++ [distillLogEntry global_step
            (mean t_out.loss * tcfg.lambda_) (mean s_out.loss * tcfg.lambda_)
            (softLogitsRaw tcfg ops s_out.logits t_out.logits *
              tcfg.soft_logits_factor)
            (hiddenLayersLoss cur_epoch s2t_hidden_states t_out.hidden_states)
            (av * tcfg.atten_layers_factor)
            (mean t_out.loss * tcfg.lambda_ + mean s_out.loss * tcfg.lambda_ +
              softLogitsRaw tcfg ops s_out.logits t_out.logits *
                tcfg.soft_logits_factor +
              hiddenLayersLoss cur_epoch s2t_hidden_states t_out.hidden_states +
              av * tcfg.atten_layers_factor)
            lr])) := by
  constructor
  · intro hep
    cases hA : attenLayersLoss mcfg.s_n_heads mcfg.t_n_heads cur_epoch
        s_out.attentions t_out.attentions with
    | error e => simp [get_loss, hd, hg, hi, hep, hA, Except.bind, Except.map]
    | ok av => simp [get_loss, hd, hg, hi, hep, hA, Except.bind, Except.map]
  · intro hep
    have hnot : ¬ (cur_epoch ≤ mcfg.num_hidden_layers + 1) := by omega
    cases hA : attenLayersLoss mcfg.s_n_heads mcfg.t_n_heads cur_epoch
        s_out.attentions t_out.attentions with
    | error e => simp [get_loss, hd, hg, hi, hnot, hA, Except.bind, Except.map]
    | ok av => simp [get_loss, hd, hg, hi, hnot, hA, Except.bind, Except.map]

/-- C1 witness: a one-hidden-layer-free student at epoch 1 = maximum. -/
theorem C1_amended_gradual_soft_zeroing_witness :
    1 ≤ 0 + 1 ∧
    get_loss ⟨true, true, false, true, "classification"⟩ ⟨1, 1, 1, 1, 1, 0, 100⟩
        ⟨0, 1, 1⟩ ⟨fun x => x, fun _ _ => 1⟩ ⟨[0], [0], [], []⟩
        ⟨[0], [0], [], []⟩ [] 0 1 0 [] =
      (attenLayersLoss 1 1 1 [] []).map fun av =>
        (mean [0] * 1 + mean [0] * 1 + 0 + hiddenLayersLoss 1 [] [] + av * 1,
        [] ++ [distillLogEntry 0 (mean [0] * 1) (mean [0] * 1) 0
          (hiddenLayersLoss 1 [] []) (av * 1)
          (mean [0] * 1 + mean [0] * 1 + 0 + hiddenLayersLoss 1 [] [] +
            av * 1) 0]) :=
  ⟨by decide,
   (C1_amended_gradual_soft_zeroing ⟨true, true, false, true, "classification"⟩
     ⟨1, 1, 1, 1, 1, 0, 100⟩ ⟨0, 1, 1⟩ ⟨fun x => x, fun _ _ => 1⟩
     ⟨[0], [0], [], []⟩ ⟨[0], [0], [], []⟩ [] 0 1 0 [] rfl rfl rfl).1
     (by decide)⟩

/-- C1 counterexample: with gradual distillation at epoch
N = `num_hidden_layers + 1` (the maximum), the computed scaled soft-logits
value is 1 while every other term is 0, yet the returned total is 0, not
1: the soft-logits term is still zeroed when N *reaches* the maximum,
contrary to the claim. -/
theorem C1_soft_zeroing_counterexample :
    get_loss ⟨true, true, false, true, "classification"⟩ ⟨1, 1, 1, 1, 1, 0, 100⟩
        ⟨0, 1, 1⟩ ⟨fun x => x, fun _ _ => 1⟩ ⟨[0], [0], [], []⟩
        ⟨[0], [0], [], []⟩ [] 0 1 0 [] =
      .ok (0, [(0, [("t_discriminator_loss", 0), ("s_discriminator_loss", 0),
        ("soft_logits_loss", 0), ("hidden_layers_loss", 0),
        ("attention_loss", 0), ("total_loss", 0), ("lr", 0)])]) ∧
    softLogitsRaw ⟨1, 1, 1, 1, 1, 0, 100⟩ ⟨fun x => x, fun _ _ => 1⟩ [0] [0] *
        (1 : ℚ) = 1 ∧
    mean [(0 : ℚ)] * 1 = 0 ∧ hiddenLayersLoss 1 [] [] = 0 ∧
    attenLayersLoss 1 1 1 [] [] = .ok 0 ∧
    (0 : ℚ) ≠ 0 + 0 + 1 + 0 + 0 := by
  have hA : attenLayersLoss 1 1 1 [] [] = Except.ok 0 := rfl
  refine ⟨?_, by norm_num [softLogitsRaw], by norm_num [mean],
    by norm_num [hiddenLayersLoss], hA, by norm_num⟩
  norm_num [get_loss, mean, softLogitsRaw, hiddenLayersLoss, hA,
    distillLogEntry, Except.bind]

/-! ## Helper lemmas : attention-head splitting -/

theorem splitWithSections_length {α : Type} (ns : List Nat) (xs : List α) :
    (splitWithSections ns xs).length = ns.length := by
  induction ns generalizing xs with
  | nil => simp [splitWithSections]
  | cons n ns ih => simp [splitWithSections, ih]

theorem splitWithSections_replicate_get {α : Type} (s : Nat) :
    ∀ (k i : Nat) (xs : List α), i < k →
      (splitWithSections (List.replicate k s) xs)[i]? =
        some ((xs.drop (i * s)).take s) := by
  intro k
  induction k with
  | zero => intro i xs hi; omega
  | succ k ih =>
    intro i xs hi
    rw [List.replicate_succ]
    cases i with
    | zero => simp [splitWithSections]
    | succ i =>
      simp only [splitWithSections, List.getElem?_cons_succ]
      rw [ih i (xs.drop s) (by omega), List.drop_drop]
      congr 2
      ring_nf

/-- When every enumerated chunk index is a valid student-head index, the
attention term loop succeeds and yields one term per chunk, in order. -/
theorem attenTermsGo_ok (s_atten : List (List ℚ)) :
    ∀ ps : List (Nat × List (List ℚ)), (∀ p ∈ ps, p.1 < s_atten.length) →
      ∃ terms, attenTermsGo s_atten ps = .ok terms ∧
        terms.length = ps.length ∧
        ∀ (j : Nat) (p : Nat × List (List ℚ)), ps[j]? = some p →
          ∀ s_head, s_atten[p.1]? = some s_head →
            terms[j]? = some (mseLoss s_head (tensorMeanHeads p.2)) := by
  intro ps
  induction ps with
  | nil => exact fun _ => ⟨[], rfl, rfl, by simp⟩
  | cons p rest ih =>
    intro h
    have hp : p.1 < s_atten.length := h p (List.mem_cons_self _ _)
    have hsome : s_atten[p.1]? = some s_atten[p.1] := List.getElem?_eq_getElem hp
    obtain ⟨terms, hgo, hlen, hidx⟩ :=
      ih (fun q hq => h q (List.mem_cons_of_mem _ hq))
    refine ⟨mseLoss s_atten[p.1] (tensorMeanHeads p.2) :: terms, ?_,
      by simp [hlen], ?_⟩
    · simp [attenTermsGo, hsome, hgo, Except.map]
    · intro j q hj s_head hs
      cases j with
      | zero =>
        simp only [List.getElem?_cons_zero, Option.some.injEq] at hj
        subst hj
        rw [hsome, Option.some.injEq] at hs
        subst hs
        simp
      | succ j =>
        simp only [List.getElem?_cons_succ] at hj ⊢
        exact hidx j q hj s_head hs

/-- As soon as some enumerated chunk index is out of range for the student
heads, the attention term loop raises `IndexError`. -/
theorem attenTermsGo_error (s_atten : List (List ℚ)) :
    ∀ ps : List (Nat × List (List ℚ)), (∃ p ∈ ps, s_atten.length ≤ p.1) →
      attenTermsGo s_atten ps = .error (.indexError "index out of range") := by
  intro ps
  induction ps with
  | nil => rintro ⟨p, hp, -⟩; cases hp
  | cons p rest ih =>
    rintro ⟨q, hq, hge⟩
    rcases List.mem_cons.mp hq with rfl | hmem
    · have hnone : s_atten[q.1]? = none := List.getElem?_eq_none hge
      simp [attenTermsGo, hnone]
    · cases hsome : s_atten[p.1]? with
      | none => simp [attenTermsGo, hsome]
      | some s_head =>
        have herr := ih ⟨q, hmem, hge⟩
        simp [attenTermsGo, hsome, herr, Except.map]

/-- C4 (amended): for each distilled layer, under the precondition that the
teacher head count is a positive integer multiple of the student head
count, the attention loss adds one mean-squared-error term for each of the
`t_n_heads / s_n_heads` teacher-head groups — term `i` compares student
head `i` to the elementwise mean of the `i`-th contiguous group of
`s_n_heads` teacher heads — provided the group count does not exceed the
student head count; when the group count exceeds the student head count
(any divisible configuration with `t_n_heads > s_n_heads ^ 2`), the layer
computation instead fails with `IndexError` while indexing the missing
student head.  (This is one term per *student* head only when the teacher
head count equals the square of the student head count.) -/
theorem C4_amended_attention_group_terms (s_n_heads t_n_heads : Nat)
    (s_atten t_atten : List (List ℚ)) (hpos : 0 < s_n_heads)
    (hdvd : s_n_heads ∣ t_n_heads) :
    (t_n_heads / s_n_heads ≤ s_atten.length →
      ∃ terms, attenLayerTerms s_n_heads t_n_heads s_atten t_atten = .ok terms ∧
        terms.length = t_n_heads / s_n_heads ∧
        ∀ i, i < t_n_heads / s_n_heads →
          ∀ s_head, s_atten[i]? = some s_head →
            terms[i]? = some (mseLoss s_head
              (tensorMeanHeads ((t_atten.drop (i * s_n_heads)).take s_n_heads)))) ∧
    (s_atten.length < t_n_heads / s_n_heads →
      attenLayerTerms s_n_heads t_n_heads s_atten t_atten =
        .error (.indexError "index out of range")) := by
  have hclen : (splitWithSections
      (List.replicate (t_n_heads / s_n_heads) s_n_heads) t_atten).length =
      t_n_heads / s_n_heads := by
    rw [splitWithSections_length, List.length_replicate]
  constructor
  · intro hsafe
    have hmem : ∀ p ∈ (splitWithSections
        (List.replicate (t_n_heads / s_n_heads) s_n_heads) t_atten).enum,
        p.1 < s_atten.length := by
      intro p hp
      have hsome := List.mem_enum_iff_getElem?.mp hp
      have hlt := (List.getElem?_eq_some.mp hsome).1
      omega
    obtain ⟨terms, hgo, hlen, hidx⟩ := attenTermsGo_ok s_atten _ hmem
    refine ⟨terms, by simpa [attenLayerTerms] using hgo, ?_, ?_⟩
    · rw [hlen, List.enum_length, hclen]
    · intro i hi s_head hs
      have hchunk := splitWithSections_replicate_get s_n_heads
        (t_n_heads / s_n_heads) i t_atten hi
      have henum : (splitWithSections
          (List.replicate (t_n_heads / s_n_heads) s_n_heads) t_atten).enum[i]? =
          some (i, (t_atten.drop (i * s_n_heads)).take s_n_heads) := by
        rw [List.getElem?_enum, hchunk]
        rfl
      exact hidx i _ henum s_head hs
  · intro hcrash
    have hchunk := splitWithSections_replicate_get s_n_heads
      (t_n_heads / s_n_heads) s_atten.length t_atten hcrash
    have henum : (splitWithSections
        (List.replicate (t_n_heads / s_n_heads) s_n_heads)
        t_atten).enum[s_atten.length]? =
        some (s_atten.length,
          (t_atten.drop (s_atten.length * s_n_heads)).take s_n_heads) := by
      rw [List.getElem?_enum, hchunk]
      rfl
    have hmem := List.getElem?_mem henum
    have herr := attenTermsGo_error s_atten _ ⟨_, hmem, le_refl _⟩
    simpa [attenLayerTerms] using herr

/-- C4 witness: teacher with 2 heads, student with 2 heads gives one group
and exactly `2 / 2 = 1` attention term against student head 0; teacher
with 8 heads and student with 2 heads (divisible, `8 > 2 ^ 2`) crashes
with `IndexError`. -/
theorem C4_amended_attention_group_terms_witness :
    (2 / 2 ≤ ([[(0 : ℚ)], [5]] : List (List ℚ)).length ∧
      (∃ terms, attenLayerTerms 2 2 [[0], [5]] [[2], [4]] = .ok terms ∧
        terms.length = 2 / 2 ∧
        ∀ i, i < 2 / 2 →
          ∀ s_head, ([[(0 : ℚ)], [5]] : List (List ℚ))[i]? = some s_head →
            terms[i]? = some (mseLoss s_head
              (tensorMeanHeads
                ((([[(2 : ℚ)], [4]] : List (List ℚ)).drop (i * 2)).take 2))))) ∧
    ([[(0 : ℚ)], [5]] : List (List ℚ)).length < 8 / 2 ∧
    attenLayerTerms 2 8 [[0], [5]] [[1], [1], [1], [1], [1], [1], [1], [1]] =
      .error (.indexError "index out of range") :=
  ⟨⟨by decide,
    (C4_amended_attention_group_terms 2 2 [[0], [5]] [[2], [4]]
      (by decide) (by decide)).1 (by decide)⟩,
   by decide,
   (C4_amended_attention_group_terms 2 8 [[0], [5]]
     [[1], [1], [1], [1], [1], [1], [1], [1]] (by decide) (by decide)).2
     (by decide)⟩

/-- C4 counterexample: with 2 student heads and 2 teacher heads (teacher
head count an integer multiple of student head count), the layer produces
a single MSE term — not one per student head — and the loss is unchanged
when student head 1 changes (5 ↦ 7), so no term compares student head 1
to anything. -/
theorem C4_attention_counterexample :
    attenLayerTerms 2 2 [[0], [5]] [[2], [4]] = .ok [9] ∧
    attenLayerTerms 2 2 [[0], [7]] [[2], [4]] = .ok [9] ∧
    ([[(0 : ℚ)], [5]] : List (List ℚ)).length = 2 ∧
    ([(9 : ℚ)] : List ℚ).length ≠ 2 := by
  refine ⟨?_, ?_, by decide, by decide⟩ <;>
    norm_num [attenLayerTerms, attenTermsGo, splitWithSections, tensorMeanHeads,
      addLists, mseLoss, List.enum, List.enumFrom, Except.map]

/-! ## Helper lemmas : training loop -/

/-- Control-flow characterisation of one epoch's batch loop when a step
budget is configured and the loop enters with the budget not yet
exceeded: the final counter is `min (g + n) (t + 1)`, the loop returns
early iff the budget would be passed, and an early return saves at step
`t + 1`. -/
theorem runEpochBatches_spec (t s : Nat) (ht : t ≠ 0) :
    ∀ (n g : Nat) (saves : List Nat), g ≤ t →
      (runEpochBatches t s n g saves).1 = min (g + n) (t + 1) ∧
      ((runEpochBatches t s n g saves).2.2 = true ↔ t < g + n) ∧
      ((runEpochBatches t s n g saves).2.2 = true →
        (runEpochBatches t s n g saves).2.1.getLast? = some (t + 1)) := by
  intro n
  induction n with
  | zero =>
    intro g saves hg
    simp only [runEpochBatches]
    refine ⟨by omega, by simp; omega, by simp⟩
  | succ n ih =>
    intro g saves hg
    simp only [runEpochBatches]
    split
    next hcond =>
      refine ⟨by simp; omega, by simp; omega, ?_⟩
      intro _
      simp only [List.getLast?_concat, Option.some.injEq]
      omega
    next hcond =>
      have hlt : ¬ t < g + 1 := fun h => hcond ⟨ht, h⟩
      have h2 := ih (g + 1)
        (if (g + 1) % s = 0 then saves ++ [g + 1] else saves) (by omega)
      exact ⟨by rw [h2.1]; omega, by rw [h2.2.1]; omega, h2.2.2⟩

/-- Control-flow characterisation of the epoch loop when a step budget is
configured: an early stop happens exactly at counter `t + 1` with a save
there; a full run of `e` epochs of `bpe` batches performs `g + e * bpe`
steps, all within the budget. -/
theorem trainLoop_spec (t s bpe : Nat) (ht : t ≠ 0) :
    ∀ (e g : Nat) (saves : List Nat), g ≤ t →
      ((trainLoop t s bpe e g saves).2.2 = true →
        (trainLoop t s bpe e g saves).1 = t + 1 ∧
        (trainLoop t s bpe e g saves).2.1.getLast? = some (t + 1)) ∧
      ((trainLoop t s bpe e g saves).2.2 = false →
        (trainLoop t s bpe e g saves).1 = g + e * bpe ∧ g + e * bpe ≤ t) := by
  intro e
  induction e with
  | zero =>
    intro g saves hg
    simp only [trainLoop]
    exact ⟨by simp, fun _ => ⟨by simp, by simpa using hg⟩⟩
  | succ e ih =>
    intro g saves hg
    simp only [trainLoop]
    have hrs := runEpochBatches_spec t s ht bpe g saves hg
    by_cases hearly : (runEpochBatches t s bpe g saves).2.2 = true
    · rw [if_pos hearly]
      refine ⟨fun _ => ⟨?_, hrs.2.2 hearly⟩, fun hfalse => ?_⟩
      · rw [hrs.1]
        have := hrs.2.1.mp hearly
        omega
      · rw [hearly] at hfalse
        cases hfalse
    · rw [if_neg hearly]
      have hnlt : ¬ t < g + bpe := fun h => hearly (hrs.2.1.mpr h)
      have hr1 : (runEpochBatches t s bpe g saves).1 = g + bpe := by
        rw [hrs.1]; omega
      have h2 := ih (runEpochBatches t s bpe g saves).1
        (runEpochBatches t s bpe g saves).2.1 (by omega)
      refine ⟨h2.1, fun hf => ?_⟩
      obtain ⟨ha, hb⟩ := h2.2 hf
      rw [Nat.succ_mul]
      exact ⟨by omega, by omega⟩

/-- C7 (amended): with a non-zero total-step budget, the training loop
performs at most `total_steps + 1` optimizer steps; when it stops early it
does so exactly at counter `total_steps + 1` — one optimizer step *beyond*
the budget — saving a checkpoint at that step; when it never stops early,
all `n_epochs * batches_per_epoch` steps stayed within the budget. -/
theorem C7_amended_step_budget (total_steps save_steps batches_per_epoch
    n_epochs : Nat) (ht : total_steps ≠ 0) :
    (trainLoop total_steps save_steps batches_per_epoch n_epochs 0 []).1 ≤
      total_steps + 1 ∧
    ((trainLoop total_steps save_steps batches_per_epoch n_epochs 0 []).2.2 =
        true →
      (trainLoop total_steps save_steps batches_per_epoch n_epochs 0 []).1 =
        total_steps + 1 ∧
      (trainLoop total_steps save_steps batches_per_epoch n_epochs 0
        []).2.1.getLast? = some (total_steps + 1)) ∧
    ((trainLoop total_steps save_steps batches_per_epoch n_epochs 0 []).2.2 =
        false →
      (trainLoop total_steps save_steps batches_per_epoch n_epochs 0 []).1 =
        n_epochs * batches_per_epoch ∧
      n_epochs * batches_per_epoch ≤ total_steps) := by
  have h := trainLoop_spec total_steps save_steps batches_per_epoch ht n_epochs
    0 [] (by omega)
  refine ⟨?_, h.1,
    fun hf => ⟨by simpa using (h.2 hf).1, by simpa using (h.2 hf).2⟩⟩
  cases he : (trainLoop total_steps save_steps batches_per_epoch n_epochs 0
      []).2.2
  · have h1 := (h.2 he).1
    have h2 := (h.2 he).2
    omega
  · have h1 := (h.1 he).1
    omega

/-- C7 witness: budget 1, one epoch of two batches. -/
theorem C7_amended_step_budget_witness :
    (1 : Nat) ≠ 0 ∧ (trainLoop 1 10 2 1 0 []).1 ≤ 1 + 1 :=
  ⟨by decide, (C7_amended_step_budget 1 10 2 1 (by decide)).1⟩

/-- C7 counterexample: with total-step budget 1 and one epoch of two
batches, the loop performs 2 optimizer steps — the check
`total_steps < global_step` (src/classify.py line 423) only fires after
the counter has strictly exceeded the budget — contradicting the claim
that no optimizer step beyond the budget is ever performed. -/
theorem C7_step_budget_counterexample :
    trainLoop 1 10 2 1 0 [] = (2, [2], true) ∧ ¬ ((2 : Nat) ≤ 1) := by
  decide

end QDElectra

